import Mathlib

/-!
Verification of `state_tracking/utils/text_to_text_utils.py`.

The file embeds the three units of the Python module:

* `TextToTextExample` — the dataclass holding one text-to-text example.
* `write_data` — writes examples to a TFRecord file: it creates the parent
  directory of the output path, optionally shuffles the examples in place,
  serializes each example into a `tf.train.Example` feature map and writes the
  records in sequence, then logs the base name and count.
* `decode_fn` — declares the parse schema (`input`, `value`, `dialog_id` as
  variable-length string features, `turn` as a scalar int64 feature) and
  parses one record.

Modelling decisions:

* A serialized `tf.train.Example` is modelled as its feature map: an
  association list from feature names to feature values.  The TFRecord
  length-prefixed framing and the protobuf byte encoding are abstracted away
  as an injective container, so a written file is a `List TFExample`.
* Byte strings are `List UInt8`; text is encoded with the real UTF-8 encoder
  `String.toUTF8` (mirroring `str.encode('utf-8')`).
* `random.shuffle` mutates its argument in place into some permutation of it;
  the permutation chosen by the random source is passed explicitly as the
  `shuffled` argument, and theorems quantify over it under a `Perm`
  hypothesis.  `write_data` returns the final state of the caller's sequence,
  making the in-place mutation observable.
* The filesystem is explicit state: a set of directories, each a list of path
  components.  `tf.io.gfile.makedirs` recursively inserts every ancestor of
  the requested directory and is a no-op on the empty path (TensorFlow's
  `RecursivelyCreateDir` returns OK for an empty remaining path).
* `tf.io.parse_single_example` semantics: a `VarLenFeature` is optional (an
  absent key yields an empty value list) and collects all values of the
  feature; a scalar `FixedLenFeature` without default is required and must
  hold exactly one value of the declared dtype; a feature present with a
  mismatched dtype is an error; keys not named in the schema are ignored.
* `turn` is mathematically an integer (`Int`); the int64 range check done by
  the protobuf layer is not modelled, no claim depends on overflow.
-/

/-- A single text-to-text dialogue example (the Python dataclass
`TextToTextExample`): `src`, `tgt`, `dialog_id` are required strings, `turn`
is a required integer, `frame` is an integer defaulting to 0. -/
structure TextToTextExample where
  src : String
  tgt : String
  dialog_id : String
  turn : Int
  frame : Int := 0
  deriving DecidableEq, Repr

/-- Models calling the dataclass constructor with each field either supplied
(`some`) or absent (`none`): the call fails (Python raises `TypeError`) when
any of the four no-default fields is absent, and `frame` defaults to 0 when
omitted. -/
def mkTextToTextExample (src tgt dialog_id : Option String)
    (turn frame : Option Int) : Option TextToTextExample :=
  match src, tgt, dialog_id, turn with
  | some s, some t, some d, some n =>
      some { src := s, tgt := t, dialog_id := d, turn := n, frame := frame.getD 0 }
  | _, _, _, _ => none

/-- The UTF-8 encoding of a string as a byte list (`str.encode('utf-8')`). -/
def utf8 (s : String) : List UInt8 := s.toUTF8.data.toList

/-- The value of one `tf.train.Feature`: exactly one of the three protobuf
kinds `bytes_list`, `int64_list`, `float_list` (float payloads are kept
abstract as raw bit patterns; the module never produces them). -/
inductive FeatureVal where
  | bytesList (vs : List (List UInt8))
  | int64List (vs : List Int)
  | floatList (bits : List Nat)
  deriving DecidableEq, Repr

/-- The feature map of one serialized `tf.train.Example`. -/
abbrev TFExample := List (String × FeatureVal)

/-- `_bytes_feature`: a `Feature` holding a `BytesList` with the single
given value. -/
def bytesFeature (value : List UInt8) : FeatureVal := .bytesList [value]

/-- `_int64_feature`: a `Feature` holding an `Int64List` with the single
given value. -/
def int64Feature (value : Int) : FeatureVal := .int64List [value]

/-- The `tf.train.Example` that `write_data` builds for one example: the four
wire features in the order the source constructs them.  `frame` is not
read. -/
def tfExampleOf (ex : TextToTextExample) : TFExample :=
  [("input", bytesFeature (utf8 ex.src)),
   ("value", bytesFeature (utf8 ex.tgt)),
   ("dialog_id", bytesFeature (utf8 ex.dialog_id)),
   ("turn", int64Feature ex.turn)]

/-- Look up a feature by name in a feature map (protobuf map access: first
binding wins). -/
def lookupFeature (r : TFExample) (k : String) : Option FeatureVal :=
  match r with
  | [] => none
  | (k2, v) :: rest => if k2 = k then some v else lookupFeature rest k

/-- `tf.io.VarLenFeature(dtype=tf.string)` parsing: the feature is optional;
an absent key yields the empty value list, a present `bytes_list` yields its
values, and any other kind is a dtype mismatch. -/
def parseVarLenString (r : TFExample) (k : String) :
    Except String (List (List UInt8)) :=
  match lookupFeature r k with
  | none => .ok []
  | some (.bytesList vs) => .ok vs
  | some _ => .error ("dtype mismatch for feature " ++ k)

/-- `tf.io.FixedLenFeature([], dtype=tf.int64)` parsing with no default: the
feature is required and must hold exactly one int64 value. -/
def parseFixedLenInt64 (r : TFExample) (k : String) : Except String Int :=
  match lookupFeature r k with
  | none => .error ("missing required feature " ++ k)
  | some (.int64List [v]) => .ok v
  | some (.int64List []) => .error ("shape mismatch for feature " ++ k)
  | some (.int64List (_ :: _ :: _)) => .error ("shape mismatch for feature " ++ k)
  | some _ => .error ("dtype mismatch for feature " ++ k)

/-- The mapping returned by `decode_fn`: the three variable-length string
features (each a list of byte strings) and the scalar `turn`. -/
structure DecodedExample where
  input : List (List UInt8)
  value : List (List UInt8)
  dialog_id : List (List UInt8)
  turn : Int
  deriving DecidableEq, Repr

/-- `decode_fn`: parse a single record against the schema
`{input: VarLen string, value: VarLen string, dialog_id: VarLen string,
turn: FixedLen [] int64}`.  Any component failure fails the whole parse; no
partial mapping is produced. -/
def decode_fn (r : TFExample) : Except String DecodedExample :=
  match parseVarLenString r "input", parseVarLenString r "value",
        parseVarLenString r "dialog_id", parseFixedLenInt64 r "turn" with
  | .ok i, .ok v, .ok d, .ok t => .ok ⟨i, v, d, t⟩
  | .error e, _, _, _ => .error e
  | .ok _, .error e, _, _ => .error e
  | .ok _, .ok _, .error e, _ => .error e
  | .ok _, .ok _, .ok _, .error e => .error e

/-- Sequentially decode every record of a written file. -/
def decodeAll (rs : List TFExample) : Except String (List DecodedExample) :=
  match rs with
  | [] => .ok []
  | r :: rest =>
    match decode_fn r, decodeAll rest with
    | .ok d, .ok ds => .ok (d :: ds)
    | .error e, _ => .error e
    | .ok _, .error e => .error e

/-- The mapping that decoding a record written from `example` is expected to
produce. -/
def expectedDecode (ex : TextToTextExample) : DecodedExample :=
  ⟨[utf8 ex.src], [utf8 ex.tgt], [utf8 ex.dialog_id], ex.turn⟩

/-! ### Paths and the filesystem -/

/-- `os.path.dirname` on the character list (POSIX `dirname`): everything up
to the final `/`, with trailing slashes stripped unless the head is all
slashes. -/
def dirnameChars (p : List Char) : List Char :=
  let head := (p.reverse.dropWhile (fun c => c ≠ '/')).reverse
  if head.any (fun c => c ≠ '/') then
    (head.reverse.dropWhile (fun c => c = '/')).reverse
  else head

/-- `os.path.dirname`. -/
def dirname (p : String) : String := ⟨dirnameChars p.data⟩

/-- `os.path.basename`: everything after the final `/`. -/
def basename (p : String) : String :=
  ⟨(p.data.reverse.takeWhile (fun c => c ≠ '/')).reverse⟩

/-- Split a character list at `/` separators. -/
def splitSlash : List Char → List (List Char)
  | [] => [[]]
  | c :: rest =>
    if c = '/' then [] :: splitSlash rest
    else
      match splitSlash rest with
      | [] => [[c]]
      | h :: t => (c :: h) :: t

/-- The `/`-separated components of a path. -/
def dirComponents (d : String) : List String :=
  (splitSlash d.data).map (fun l => ⟨l⟩)

/-- The filesystem state: the set of directories that exist, each as its list
of path components. -/
abbrev FS := List (List String)

/-- Create one directory if it is absent (`CreateDir` ignoring
`ALREADY_EXISTS`). -/
def insertDir (fs : FS) (p : List String) : FS :=
  if p ∈ fs then fs else fs ++ [p]

/-- The chain of cumulative component paths below `pre`: for components
`[a, b]` below `[]` this is `[[a], [a, b]]`. -/
def cumDirs (pre : List String) : List String → List (List String)
  | [] => []
  | c :: rest => (pre ++ [c]) :: cumDirs (pre ++ [c]) rest

/-- `tf.io.gfile.makedirs`: recursively create the directory and every
missing ancestor; succeed when they already exist; a no-op on the empty
path (TensorFlow's `RecursivelyCreateDir` returns OK when the parsed
remaining path is empty). -/
def makedirs (fs : FS) (d : String) : FS :=
  if d = "" then fs
  else (cumDirs [] (dirComponents d)).foldl insertDir fs

/-! ### The writer -/

/-- One externally visible action of `write_data`, in program order. -/
inductive Effect where
  | mkdirRec (d : String)
  | fileWrite (path : String) (records : List TFExample)
  | logInfo (base : String) (count : Nat)
  deriving DecidableEq, Repr

/-- Everything observable about one `write_data` call. -/
structure WriteResult where
  /-- The filesystem after the `makedirs` call. -/
  fsAfter : FS
  /-- The records written to the output file, in file order. -/
  fileRecords : List TFExample
  /-- The caller's `examples` sequence after the call (`random.shuffle`
  mutates it in place). -/
  finalExamples : List TextToTextExample
  /-- The base name passed to the log call. -/
  loggedBase : String
  /-- The count passed to the log call (`len(examples)` at log time). -/
  loggedCount : Nat
  /-- The side effects in program order. -/
  trace : List Effect
  deriving Repr

/-- `write_data(examples, output_path, shuffle)`: create the parent
directory of `output_path`, shuffle the sequence in place when `shuffle` is
true (`shuffled` is the permutation the random source produced), write one
serialized record per example in sequence, and log the base name and count.
The `fs` argument is the filesystem state the call starts from. -/
def write_data (fs : FS) (examples : List TextToTextExample)
    (output_path : String) (shuffle : Bool)
    (shuffled : List TextToTextExample) : WriteResult :=
  let seq := if shuffle then shuffled else examples
  { fsAfter := makedirs fs (dirname output_path)
    fileRecords := seq.map tfExampleOf
    finalExamples := seq
    loggedBase := basename output_path
    loggedCount := seq.length
    trace := [.mkdirRec (dirname output_path),
              .fileWrite output_path (seq.map tfExampleOf),
              .logInfo (basename output_path) seq.length] }

/-- Whether an `Except` result is a success. -/
def exceptOk {α : Type} (e : Except String α) : Bool :=
  match e with
  | .ok _ => true
  | .error _ => false

/-- A feature value usable where the schema declares a string
`VarLenFeature`: any `bytes_list`. -/
def stringTyped (fv : FeatureVal) : Prop := ∃ vs, fv = FeatureVal.bytesList vs

/-- The record length a UTF-8 lead byte announces (0 marks a continuation
byte, which never leads a well-formed encoding). -/
def leadLen (b : Nat) : Nat :=
  if b < 128 then 1 else if b < 192 then 0 else if b < 224 then 2
  else if b < 240 then 3 else 4

/-! ### Round-trip lemmas -/

theorem decode_tfExampleOf (ex : TextToTextExample) :
    decode_fn (tfExampleOf ex) = .ok (expectedDecode ex) := rfl

theorem decodeAll_map_tfExampleOf (l : List TextToTextExample) :
    decodeAll (l.map tfExampleOf) = .ok (l.map expectedDecode) := by
  induction l with
  | nil => rfl
  | cons x xs ih => simp [decodeAll, decode_tfExampleOf, ih, List.map]

theorem tfExampleOf_frame_irrelevant (ex : TextToTextExample) (f : Int) :
    tfExampleOf { ex with frame := f } = tfExampleOf ex := rfl

theorem lookupFeature_cons_ne (r : TFExample) (k k2 : String) (v : FeatureVal)
    (h : k2 ≠ k) : lookupFeature ((k2, v) :: r) k = lookupFeature r k := by
  simp [lookupFeature, h]

/-! ### Filesystem lemmas -/

theorem mem_foldl_insertDir_of_mem (l : List (List String)) (fs : FS)
    (p : List String) (h : p ∈ fs) : p ∈ l.foldl insertDir fs := by
  induction l generalizing fs with
  | nil => exact h
  | cons x xs ih =>
    apply ih
    unfold insertDir
    split
    · exact h
    · exact List.mem_append_left _ h

theorem mem_insertDir_self (fs : FS) (p : List String) : p ∈ insertDir fs p := by
  unfold insertDir
  split
  · assumption
  · exact List.mem_append_right _ (List.mem_singleton.mpr rfl)

theorem mem_foldl_insertDir_self (l : List (List String)) (fs : FS)
    (p : List String) (h : p ∈ l) : p ∈ l.foldl insertDir fs := by
  induction l generalizing fs with
  | nil => cases h
  | cons x xs ih =>
    rcases List.mem_cons.mp h with rfl | h2
    · exact mem_foldl_insertDir_of_mem xs _ p (mem_insertDir_self fs p)
    · exact ih _ h2

theorem foldl_insertDir_of_all_mem (l : List (List String)) (fs : FS)
    (h : ∀ p ∈ l, p ∈ fs) : l.foldl insertDir fs = fs := by
  induction l with
  | nil => rfl
  | cons x xs ih =>
    have hx : insertDir fs x = fs := by
      unfold insertDir
      rw [if_pos (h x (List.mem_cons_self x xs))]
    rw [List.foldl_cons, hx]
    exact ih (fun p hp => h p (List.mem_cons_of_mem x hp))

theorem self_mem_cumDirs (pre : List String) (parts : List String)
    (h : parts ≠ []) : pre ++ parts ∈ cumDirs pre parts := by
  induction parts generalizing pre with
  | nil => exact absurd rfl h
  | cons c rest ih =>
    cases rest with
    | nil => simp [cumDirs]
    | cons c2 t =>
      have := ih (pre ++ [c]) (by simp)
      rw [cumDirs]
      refine List.mem_cons_of_mem _ ?_
      simpa using this

theorem splitSlash_ne_nil (p : List Char) : splitSlash p ≠ [] := by
  cases p with
  | nil => simp [splitSlash]
  | cons c rest =>
    rw [splitSlash]
    split
    · simp
    · split <;> simp

theorem dirComponents_ne_nil (d : String) : dirComponents d ≠ [] := by
  unfold dirComponents
  simp [splitSlash_ne_nil]

theorem mem_makedirs_self (fs : FS) (d : String) (h : d ≠ "") :
    dirComponents d ∈ makedirs fs d := by
  unfold makedirs
  rw [if_neg h]
  exact mem_foldl_insertDir_self _ _ _
    (by simpa using self_mem_cumDirs [] (dirComponents d) (dirComponents_ne_nil d))

theorem makedirs_idempotent (fs : FS) (d : String) :
    makedirs (makedirs fs d) d = makedirs fs d := by
  unfold makedirs
  split
  · rfl
  · exact foldl_insertDir_of_all_mem _ _
      (fun p hp => mem_foldl_insertDir_self _ _ _ hp)

theorem mem_makedirs_of_mem (fs : FS) (d : String) (p : List String)
    (h : p ∈ fs) : p ∈ makedirs fs d := by
  unfold makedirs
  split
  · exact h
  · exact mem_foldl_insertDir_of_mem _ _ _ h

theorem mem_makedirs_ancestors (fs : FS) (d : String) (h : d ≠ "")
    (p : List String) (hp : p ∈ cumDirs [] (dirComponents d)) :
    p ∈ makedirs fs d := by
  unfold makedirs
  rw [if_neg h]
  exact mem_foldl_insertDir_self _ _ _ hp

/-! ### Decode success characterization -/

theorem parseVarLenString_ok_iff (r : TFExample) (k : String) :
    exceptOk (parseVarLenString r k) = true ↔
      ∀ fv, lookupFeature r k = some fv → stringTyped fv := by
  unfold parseVarLenString
  cases h : lookupFeature r k with
  | none => simp [exceptOk]
  | some fv =>
    cases fv with
    | bytesList vs => simp [exceptOk, stringTyped]
    | int64List vs => simp [exceptOk, stringTyped]
    | floatList bits => simp [exceptOk, stringTyped]

theorem parseFixedLenInt64_ok_iff (r : TFExample) (k : String) :
    exceptOk (parseFixedLenInt64 r k) = true ↔
      ∃ v, lookupFeature r k = some (FeatureVal.int64List [v]) := by
  unfold parseFixedLenInt64
  cases h : lookupFeature r k with
  | none => simp [exceptOk]
  | some fv =>
    cases fv with
    | bytesList vs => simp [exceptOk]
    | int64List vs =>
      cases vs with
      | nil => simp [exceptOk]
      | cons v t =>
        cases t with
        | nil => simp [exceptOk]
        | cons v2 t2 => simp [exceptOk]
    | floatList bits => simp [exceptOk]

theorem decode_fn_ok_iff_components (r : TFExample) :
    exceptOk (decode_fn r) = true ↔
      (exceptOk (parseVarLenString r "input") = true
       ∧ exceptOk (parseVarLenString r "value") = true
       ∧ exceptOk (parseVarLenString r "dialog_id") = true
       ∧ exceptOk (parseFixedLenInt64 r "turn") = true) := by
  unfold decode_fn
  cases h1 : parseVarLenString r "input" <;>
    cases h2 : parseVarLenString r "value" <;>
      cases h3 : parseVarLenString r "dialog_id" <;>
        cases h4 : parseFixedLenInt64 r "turn" <;>
          simp [exceptOk]

/-- Exactly when `decode_fn` succeeds: `turn` is present as a single int64
value, and each of the three declared string features is either absent or a
`bytes_list`.  Missing string features and extra features are not errors. -/
theorem decode_fn_ok_characterization (r : TFExample) :
    exceptOk (decode_fn r) = true ↔
      ((∃ v, lookupFeature r "turn" = some (FeatureVal.int64List [v]))
       ∧ (∀ fv, lookupFeature r "input" = some fv → stringTyped fv)
       ∧ (∀ fv, lookupFeature r "value" = some fv → stringTyped fv)
       ∧ (∀ fv, lookupFeature r "dialog_id" = some fv → stringTyped fv)) := by
  rw [decode_fn_ok_iff_components, parseVarLenString_ok_iff,
    parseVarLenString_ok_iff, parseVarLenString_ok_iff, parseFixedLenInt64_ok_iff]
  tauto

theorem parseVarLenString_cons_ne (r : TFExample) (k k2 : String)
    (v : FeatureVal) (h : k2 ≠ k) :
    parseVarLenString ((k2, v) :: r) k = parseVarLenString r k := by
  unfold parseVarLenString
  rw [lookupFeature_cons_ne r k k2 v h]

theorem parseFixedLenInt64_cons_ne (r : TFExample) (k k2 : String)
    (v : FeatureVal) (h : k2 ≠ k) :
    parseFixedLenInt64 ((k2, v) :: r) k = parseFixedLenInt64 r k := by
  unfold parseFixedLenInt64
  rw [lookupFeature_cons_ne r k k2 v h]

/-- A feature whose key is not one of the four schema keys has no effect on
decoding. -/
theorem decode_fn_extra_feature (r : TFExample) (k : String) (v : FeatureVal)
    (h1 : k ≠ "input") (h2 : k ≠ "value") (h3 : k ≠ "dialog_id")
    (h4 : k ≠ "turn") :
    decode_fn ((k, v) :: r) = decode_fn r := by
  unfold decode_fn
  rw [parseVarLenString_cons_ne r "input" k v h1,
    parseVarLenString_cons_ne r "value" k v h2,
    parseVarLenString_cons_ne r "dialog_id" k v h3,
    parseFixedLenInt64_cons_ne r "turn" k v h4]

/-! ### UTF-8 injectivity

Bridging lemmas from UInt8/UInt32 operations to Nat arithmetic, small-range
bit facts by enumeration, and the prefix-code property of
`String.utf8EncodeChar`, giving injectivity of the UTF-8 encoding: the bytes
the writer stores determine the original text. -/

theorem uint8_and_toNat (a b : UInt8) : (a &&& b).toNat = a.toNat &&& b.toNat :=
  BitVec.toNat_and a.toBitVec b.toBitVec

theorem uint8_or_toNat (a b : UInt8) : (a ||| b).toNat = a.toNat ||| b.toNat :=
  BitVec.toNat_or a.toBitVec b.toBitVec

theorem uint32_toUInt8_toNat (v : UInt32) : v.toUInt8.toNat = v.toNat % 256 := by
  simp [UInt32.toUInt8, Nat.toUInt8, UInt8.ofNat, UInt8.toNat]

theorem uint32_shr_toNat (v k : UInt32) (kk : Nat)
    (h : (k % 32).toBitVec.toNat = kk) : (v >>> k).toNat = v.toNat >>> kk := by
  show (v.toBitVec >>> (k % 32).toBitVec).toNat = v.toBitVec.toNat >>> kk
  rw [BitVec.ushiftRight_eq', BitVec.toNat_ushiftRight, h]

theorem uint32_le_toNat (v w : UInt32) : v ≤ w ↔ v.toNat ≤ w.toNat := Iff.rfl

/-! Small-range Nat bit facts, established by enumeration. -/

set_option maxRecDepth 4096 in
theorem rec64 : ∀ x : Nat, x < 64 → (x ||| 128) &&& 63 = x := by decide

set_option maxRecDepth 4096 in
theorem rec32 : ∀ x : Nat, x < 32 → (x ||| 192) &&& 31 = x := by decide

set_option maxRecDepth 4096 in
theorem rec16 : ∀ x : Nat, x < 16 → (x ||| 224) &&& 15 = x := by decide

set_option maxRecDepth 4096 in
theorem rec8 : ∀ x : Nat, x < 8 → (x ||| 240) &&& 7 = x := by decide

set_option maxRecDepth 4096 in
theorem range128 : ∀ x : Nat, x < 64 → 128 ≤ (x ||| 128) ∧ (x ||| 128) < 192 := by decide

set_option maxRecDepth 4096 in
theorem range192 : ∀ x : Nat, x < 32 → 192 ≤ (x ||| 192) ∧ (x ||| 192) < 224 := by decide

set_option maxRecDepth 4096 in
theorem range224 : ∀ x : Nat, x < 16 → 224 ≤ (x ||| 224) ∧ (x ||| 224) < 240 := by decide

set_option maxRecDepth 4096 in
theorem range240 : ∀ x : Nat, x < 8 → 240 ≤ (x ||| 240) := by decide

theorem mask63 (x : Nat) : x &&& 63 = x % 64 := by
  have h := Nat.and_pow_two_sub_one_eq_mod x 6
  norm_num at h
  exact h

theorem mask31 (x : Nat) : x &&& 31 = x % 32 := by
  have h := Nat.and_pow_two_sub_one_eq_mod x 5
  norm_num at h
  exact h

theorem mask15 (x : Nat) : x &&& 15 = x % 16 := by
  have h := Nat.and_pow_two_sub_one_eq_mod x 4
  norm_num at h
  exact h

theorem mask7 (x : Nat) : x &&& 7 = x % 8 := by
  have h := Nat.and_pow_two_sub_one_eq_mod x 3
  norm_num at h
  exact h

/-! Shapes of the bytes produced by `String.utf8EncodeChar`, as Nat. -/

theorem byteLow_toNat (v : UInt32) :
    (v.toUInt8 &&& 0x3f ||| 0x80).toNat = (v.toNat % 64) ||| 128 := by
  rw [uint8_or_toNat, uint8_and_toNat, uint32_toUInt8_toNat]
  have h1 : ((0x3f : UInt8)).toNat = 63 := rfl
  have h2 : ((0x80 : UInt8)).toNat = 128 := rfl
  rw [h1, h2, mask63, Nat.mod_mod_of_dvd _ (by norm_num)]

theorem byteShr6Low_toNat (v : UInt32) :
    ((v >>> 6).toUInt8 &&& 0x3f ||| 0x80).toNat = ((v.toNat / 64) % 64) ||| 128 := by
  rw [byteLow_toNat, uint32_shr_toNat v 6 6 (by decide), Nat.shiftRight_eq_div_pow]

theorem byteShr12Low_toNat (v : UInt32) :
    ((v >>> 12).toUInt8 &&& 0x3f ||| 0x80).toNat = ((v.toNat / 4096) % 64) ||| 128 := by
  rw [byteLow_toNat, uint32_shr_toNat v 12 12 (by decide), Nat.shiftRight_eq_div_pow]

theorem byteShr6Hi2_toNat (v : UInt32) :
    ((v >>> 6).toUInt8 &&& 0x1f ||| 0xc0).toNat = ((v.toNat / 64) % 32) ||| 192 := by
  rw [uint8_or_toNat, uint8_and_toNat, uint32_toUInt8_toNat,
    uint32_shr_toNat v 6 6 (by decide), Nat.shiftRight_eq_div_pow]
  have h1 : ((0x1f : UInt8)).toNat = 31 := rfl
  have h2 : ((0xc0 : UInt8)).toNat = 192 := rfl
  rw [h1, h2, mask31, Nat.mod_mod_of_dvd _ (by norm_num)]

theorem byteShr12Hi3_toNat (v : UInt32) :
    ((v >>> 12).toUInt8 &&& 0x0f ||| 0xe0).toNat = ((v.toNat / 4096) % 16) ||| 224 := by
  rw [uint8_or_toNat, uint8_and_toNat, uint32_toUInt8_toNat,
    uint32_shr_toNat v 12 12 (by decide), Nat.shiftRight_eq_div_pow]
  have h1 : ((0x0f : UInt8)).toNat = 15 := rfl
  have h2 : ((0xe0 : UInt8)).toNat = 224 := rfl
  rw [h1, h2, mask15, Nat.mod_mod_of_dvd _ (by norm_num)]

theorem byteShr18Hi4_toNat (v : UInt32) :
    ((v >>> 18).toUInt8 &&& 0x07 ||| 0xf0).toNat = ((v.toNat / 262144) % 8) ||| 240 := by
  rw [uint8_or_toNat, uint8_and_toNat, uint32_toUInt8_toNat,
    uint32_shr_toNat v 18 18 (by decide), Nat.shiftRight_eq_div_pow]
  have h1 : ((0x07 : UInt8)).toNat = 7 := rfl
  have h2 : ((0xf0 : UInt8)).toNat = 240 := rfl
  rw [h1, h2, mask7, Nat.mod_mod_of_dvd _ (by norm_num)]

/-! Branch analysis of `String.utf8EncodeChar`. -/

theorem char_toNat_lt (c : Char) : c.val.toNat < 1114112 := by
  rcases c.valid with h | ⟨_, h⟩ <;> omega

theorem encChar_branches (c : Char) :
    (c.val.toNat ≤ 0x7f ∧ String.utf8EncodeChar c = [c.val.toUInt8])
    ∨ (0x7f < c.val.toNat ∧ c.val.toNat ≤ 0x7ff ∧ String.utf8EncodeChar c =
        [(c.val >>> 6).toUInt8 &&& 0x1f ||| 0xc0,
         c.val.toUInt8 &&& 0x3f ||| 0x80])
    ∨ (0x7ff < c.val.toNat ∧ c.val.toNat ≤ 0xffff ∧ String.utf8EncodeChar c =
        [(c.val >>> 12).toUInt8 &&& 0x0f ||| 0xe0,
         (c.val >>> 6).toUInt8 &&& 0x3f ||| 0x80,
         c.val.toUInt8 &&& 0x3f ||| 0x80])
    ∨ (0xffff < c.val.toNat ∧ c.val.toNat < 0x110000 ∧ String.utf8EncodeChar c =
        [(c.val >>> 18).toUInt8 &&& 0x07 ||| 0xf0,
         (c.val >>> 12).toUInt8 &&& 0x3f ||| 0x80,
         (c.val >>> 6).toUInt8 &&& 0x3f ||| 0x80,
         c.val.toUInt8 &&& 0x3f ||| 0x80]) := by
  unfold String.utf8EncodeChar
  dsimp only
  have b1 : (c.val ≤ 0x7f) ↔ c.val.toNat ≤ 0x7f := uint32_le_toNat c.val 0x7f
  have b2 : (c.val ≤ 0x7ff) ↔ c.val.toNat ≤ 0x7ff := uint32_le_toNat c.val 0x7ff
  have b3 : (c.val ≤ 0xffff) ↔ c.val.toNat ≤ 0xffff := uint32_le_toNat c.val 0xffff
  have hv := char_toNat_lt c
  split_ifs with h1 h2 h3
  · exact Or.inl ⟨b1.mp h1, rfl⟩
  · refine Or.inr (Or.inl ⟨?_, ?_, rfl⟩)
    · have := (not_iff_not.mpr b1).mp h1
      omega
    · exact b2.mp h2
  · refine Or.inr (Or.inr (Or.inl ⟨?_, ?_, rfl⟩))
    · have := (not_iff_not.mpr b2).mp h2
      omega
    · exact b3.mp h3
  · refine Or.inr (Or.inr (Or.inr ⟨?_, hv, rfl⟩))
    have := (not_iff_not.mpr b3).mp h3
    omega

theorem encChar_lead (c : Char) :
    ∃ b l, String.utf8EncodeChar c = b :: l
      ∧ leadLen b.toNat = (String.utf8EncodeChar c).length := by
  rcases encChar_branches c with ⟨h, he⟩ | ⟨h1, h2, he⟩ | ⟨h1, h2, he⟩ | ⟨h1, h2, he⟩
  · refine ⟨_, _, he, ?_⟩
    rw [he]
    have : c.val.toUInt8.toNat = c.val.toNat % 256 := uint32_toUInt8_toNat c.val
    unfold leadLen
    split_ifs with g1 g2 g3 g4 <;> simp_all <;> omega
  · refine ⟨_, _, he, ?_⟩
    rw [he]
    have hb := byteShr6Hi2_toNat c.val
    have hr := range192 ((c.val.toNat / 64) % 32) (Nat.mod_lt _ (by norm_num))
    unfold leadLen
    split_ifs <;> simp_all <;> omega
  · refine ⟨_, _, he, ?_⟩
    rw [he]
    have hb := byteShr12Hi3_toNat c.val
    have hr := range224 ((c.val.toNat / 4096) % 16) (Nat.mod_lt _ (by norm_num))
    unfold leadLen
    split_ifs <;> simp_all <;> omega
  · refine ⟨_, _, he, ?_⟩
    rw [he]
    have hb := byteShr18Hi4_toNat c.val
    have hr := range240 ((c.val.toNat / 262144) % 8) (Nat.mod_lt _ (by norm_num))
    unfold leadLen
    split_ifs <;> simp_all <;> omega

theorem encChar_append_inj (c d : Char) (l1 l2 : List UInt8)
    (h : String.utf8EncodeChar c ++ l1 = String.utf8EncodeChar d ++ l2) :
    String.utf8EncodeChar c = String.utf8EncodeChar d ∧ l1 = l2 := by
  obtain ⟨b, t, hb, hl⟩ := encChar_lead c
  obtain ⟨b2, t2, hb2, hl2⟩ := encChar_lead d
  have hbb : b = b2 := by
    rw [hb, hb2] at h
    simpa using congrArg List.head? h
  have hlen : (String.utf8EncodeChar c).length = (String.utf8EncodeChar d).length := by
    rw [← hl, ← hl2, hbb]
  exact List.append_inj h hlen

theorem orCancel128 (a b : Nat) (ha : a < 64) (hb : b < 64)
    (h : a ||| 128 = b ||| 128) : a = b := by
  have h2 := congrArg (fun z => z &&& 63) h
  simpa [rec64 a ha, rec64 b hb] using h2

theorem orCancel192 (a b : Nat) (ha : a < 32) (hb : b < 32)
    (h : a ||| 192 = b ||| 192) : a = b := by
  have h2 := congrArg (fun z => z &&& 31) h
  simpa [rec32 a ha, rec32 b hb] using h2

theorem orCancel224 (a b : Nat) (ha : a < 16) (hb : b < 16)
    (h : a ||| 224 = b ||| 224) : a = b := by
  have h2 := congrArg (fun z => z &&& 15) h
  simpa [rec16 a ha, rec16 b hb] using h2

theorem orCancel240 (a b : Nat) (ha : a < 8) (hb : b < 8)
    (h : a ||| 240 = b ||| 240) : a = b := by
  have h2 := congrArg (fun z => z &&& 7) h
  simpa [rec8 a ha, rec8 b hb] using h2

theorem encChar_inj (c d : Char)
    (h : String.utf8EncodeChar c = String.utf8EncodeChar d) : c = d := by
  have goalOf : c.val.toNat = d.val.toNat -> c = d := by
    intro hn
    exact Char.ext (UInt32.toNat.inj hn)
  rcases encChar_branches c with ⟨hc, hec⟩ | ⟨hc1, hc2, hec⟩ | ⟨hc1, hc2, hec⟩ | ⟨hc1, hc2, hec⟩ <;>
    rcases encChar_branches d with ⟨hd, hed⟩ | ⟨hd1, hd2, hed⟩ | ⟨hd1, hd2, hed⟩ | ⟨hd1, hd2, hed⟩ <;>
      rw [hec, hed] at h <;> simp at h
  · apply goalOf
    have hx := congrArg UInt8.toNat h
    rw [uint32_toUInt8_toNat, uint32_toUInt8_toNat] at hx
    omega
  · obtain ⟨h0, h1⟩ := h
    have x0 := congrArg UInt8.toNat h0
    rw [byteShr6Hi2_toNat, byteShr6Hi2_toNat] at x0
    have x1 := congrArg UInt8.toNat h1
    rw [byteLow_toNat, byteLow_toNat] at x1
    have e0 := orCancel192 _ _ (Nat.mod_lt _ (by norm_num)) (Nat.mod_lt _ (by norm_num)) x0
    have e1 := orCancel128 _ _ (Nat.mod_lt _ (by norm_num)) (Nat.mod_lt _ (by norm_num)) x1
    apply goalOf
    omega
  · obtain ⟨h0, h1, h2⟩ := h
    have x0 := congrArg UInt8.toNat h0
    rw [byteShr12Hi3_toNat, byteShr12Hi3_toNat] at x0
    have x1 := congrArg UInt8.toNat h1
    rw [byteShr6Low_toNat, byteShr6Low_toNat] at x1
    have x2 := congrArg UInt8.toNat h2
    rw [byteLow_toNat, byteLow_toNat] at x2
    have e0 := orCancel224 _ _ (Nat.mod_lt _ (by norm_num)) (Nat.mod_lt _ (by norm_num)) x0
    have e1 := orCancel128 _ _ (Nat.mod_lt _ (by norm_num)) (Nat.mod_lt _ (by norm_num)) x1
    have e2 := orCancel128 _ _ (Nat.mod_lt _ (by norm_num)) (Nat.mod_lt _ (by norm_num)) x2
    apply goalOf
    omega
  · obtain ⟨h0, h1, h2, h3⟩ := h
    have x0 := congrArg UInt8.toNat h0
    rw [byteShr18Hi4_toNat, byteShr18Hi4_toNat] at x0
    have x1 := congrArg UInt8.toNat h1
    rw [byteShr12Low_toNat, byteShr12Low_toNat] at x1
    have x2 := congrArg UInt8.toNat h2
    rw [byteShr6Low_toNat, byteShr6Low_toNat] at x2
    have x3 := congrArg UInt8.toNat h3
    rw [byteLow_toNat, byteLow_toNat] at x3
    have e0 := orCancel240 _ _ (Nat.mod_lt _ (by norm_num)) (Nat.mod_lt _ (by norm_num)) x0
    have e1 := orCancel128 _ _ (Nat.mod_lt _ (by norm_num)) (Nat.mod_lt _ (by norm_num)) x1
    have e2 := orCancel128 _ _ (Nat.mod_lt _ (by norm_num)) (Nat.mod_lt _ (by norm_num)) x2
    have e3 := orCancel128 _ _ (Nat.mod_lt _ (by norm_num)) (Nat.mod_lt _ (by norm_num)) x3
    apply goalOf
    omega

theorem encChar_ne_nil (c : Char) : String.utf8EncodeChar c ≠ [] := by
  obtain ⟨b, l, hb, _⟩ := encChar_lead c
  rw [hb]
  simp

theorem flatMap_encChar_inj (cs ds : List Char)
    (h : cs.flatMap String.utf8EncodeChar = ds.flatMap String.utf8EncodeChar) :
    cs = ds := by
  induction cs generalizing ds with
  | nil =>
    cases ds with
    | nil => rfl
    | cons d ds2 =>
      rw [List.flatMap_nil, List.flatMap_cons] at h
      exact absurd h.symm (by simp [encChar_ne_nil d])
  | cons c cs2 ih =>
    cases ds with
    | nil =>
      rw [List.flatMap_nil, List.flatMap_cons] at h
      exact absurd h (by simp [encChar_ne_nil c])
    | cons d ds2 =>
      rw [List.flatMap_cons, List.flatMap_cons] at h
      obtain ⟨h1, h2⟩ := encChar_append_inj c d _ _ h
      rw [encChar_inj c d h1, ih ds2 h2]

theorem utf8_injective (s t : String) (h : utf8 s = utf8 t) : s = t := by
  have hs : utf8 s = s.data.flatMap String.utf8EncodeChar := rfl
  have ht : utf8 t = t.data.flatMap String.utf8EncodeChar := rfl
  rw [hs, ht] at h
  have := flatMap_encChar_inj _ _ h
  cases s
  cases t
  exact congrArg String.mk this

/-! ### The claims -/

/-- C1: decoding (with the schema of `decode_fn`) the record `write_data`
serializes for an example yields `input` holding exactly the UTF-8 bytes of
`src`, `value` those of `tgt`, `dialog_id` those of `dialog_id`, and `turn`
equal to the record's `turn`; by injectivity of UTF-8 the stored bytes
determine the original strings, so UTF-8 decoding them recovers `src`,
`tgt`, `dialog_id` exactly; and `frame` is not recoverable: any two examples
differing only in `frame` produce the same written record. -/
theorem claim1_roundtrip (ex : TextToTextExample) :
    decode_fn (tfExampleOf ex) = Except.ok (expectedDecode ex)
    ∧ (expectedDecode ex).input = [utf8 ex.src]
    ∧ (expectedDecode ex).value = [utf8 ex.tgt]
    ∧ (expectedDecode ex).dialog_id = [utf8 ex.dialog_id]
    ∧ (expectedDecode ex).turn = ex.turn
    ∧ (∀ s, utf8 s = utf8 ex.src → s = ex.src)
    ∧ (∀ s, utf8 s = utf8 ex.tgt → s = ex.tgt)
    ∧ (∀ s, utf8 s = utf8 ex.dialog_id → s = ex.dialog_id)
    ∧ (∀ f, tfExampleOf { ex with frame := f } = tfExampleOf ex) :=
  ⟨decode_tfExampleOf ex, rfl, rfl, rfl, rfl,
   fun s h => utf8_injective s ex.src h,
   fun s h => utf8_injective s ex.tgt h,
   fun s h => utf8_injective s ex.dialog_id h,
   fun _ => rfl⟩

/-- C1 witness: the round trip evaluated on a concrete example, and the
recovery implication discharged at a concrete string. -/
theorem claim1_roundtrip_witness :
    decode_fn (tfExampleOf ⟨"hi", "hello", "d1", 0, 0⟩)
      = Except.ok (expectedDecode ⟨"hi", "hello", "d1", 0, 0⟩)
    ∧ ("hi" : String) = "hi" :=
  ⟨(claim1_roundtrip ⟨"hi", "hello", "d1", 0, 0⟩).1,
   (claim1_roundtrip ⟨"hi", "hello", "d1", 0, 0⟩).2.2.2.2.2.1 "hi" rfl⟩

/-- C2 counterexample: the claim says every record that does not contain
exactly the four schema fields fails to decode.  It is false at two explicit
inputs: a record carrying a fifth feature `frame` decodes successfully (extra
keys are ignored), and a record containing only `turn` decodes successfully
with empty values for the three absent variable-length string fields. -/
theorem claim2_counterexample :
    decode_fn (tfExampleOf ⟨"a", "b", "d", 3, 0⟩
        ++ [("frame", FeatureVal.int64List [1])])
      = Except.ok (expectedDecode ⟨"a", "b", "d", 3, 0⟩)
    ∧ decode_fn [("turn", FeatureVal.int64List [7])] = Except.ok ⟨[], [], [], 7⟩ :=
  ⟨rfl, rfl⟩

/-- C2 (amended): `decode_fn` fails with a schema-mismatch error exactly when
`turn` is absent or is not a single int64 value, or when one of the declared
string fields is present with a non-bytes kind; a record missing some of the
three variable-length string fields still decodes (the missing field decodes
to an empty value list), a feature with any other key is ignored, and on
failure the result is an error carrying no partially decoded mapping. -/
theorem claim2_amended_decode_errors (r : TFExample) (k : String)
    (v : FeatureVal) (h1 : k ≠ "input") (h2 : k ≠ "value")
    (h3 : k ≠ "dialog_id") (h4 : k ≠ "turn") :
    (exceptOk (decode_fn r) = true ↔
      ((∃ t, lookupFeature r "turn" = some (FeatureVal.int64List [t]))
       ∧ (∀ fv, lookupFeature r "input" = some fv → stringTyped fv)
       ∧ (∀ fv, lookupFeature r "value" = some fv → stringTyped fv)
       ∧ (∀ fv, lookupFeature r "dialog_id" = some fv → stringTyped fv)))
    ∧ decode_fn ((k, v) :: r) = decode_fn r
    ∧ (lookupFeature r "input" = none → parseVarLenString r "input" = Except.ok []) := by
  refine ⟨decode_fn_ok_characterization r,
    decode_fn_extra_feature r k v h1 h2 h3 h4, ?_⟩
  intro h
  unfold parseVarLenString
  rw [h]

/-- C2 witness: the amended statement evaluated at a concrete record and a
concrete extra key. -/
theorem claim2_amended_witness :
    (("frame" : String) ≠ "input" ∧ ("frame" : String) ≠ "value"
      ∧ ("frame" : String) ≠ "dialog_id" ∧ ("frame" : String) ≠ "turn")
    ∧ decode_fn (("frame", FeatureVal.int64List [1])
        :: [("turn", FeatureVal.int64List [7])])
      = decode_fn [("turn", FeatureVal.int64List [7])] :=
  ⟨⟨by decide, by decide, by decide, by decide⟩,
   (claim2_amended_decode_errors [("turn", FeatureVal.int64List [7])] "frame"
     (FeatureVal.int64List [1]) (by decide) (by decide) (by decide)
     (by decide)).2.1⟩

/-- C3: with `shuffle = false` the writer serializes the input sequence in
its original order, and sequentially decoding the written file yields the
records' decoded images in exactly the input order. -/
theorem claim3_no_shuffle_preserves_order (fs : FS)
    (examples shuffled : List TextToTextExample) (path : String) :
    (write_data fs examples path false shuffled).fileRecords
      = examples.map tfExampleOf
    ∧ decodeAll ((write_data fs examples path false shuffled).fileRecords)
      = Except.ok (examples.map expectedDecode) :=
  ⟨rfl, decodeAll_map_tfExampleOf examples⟩

/-- C4: the serialized container for one example has exactly the four wire
fields `input`, `value`, `dialog_id`, `turn` in that order, carrying the
UTF-8 bytes of `src`, `tgt`, `dialog_id` and the integer `turn`; `frame` is
never written (examples differing only in `frame` serialize identically). -/
theorem claim4_wire_schema (ex : TextToTextExample) :
    (tfExampleOf ex).map Prod.fst = ["input", "value", "dialog_id", "turn"]
    ∧ lookupFeature (tfExampleOf ex) "input"
        = some (FeatureVal.bytesList [utf8 ex.src])
    ∧ lookupFeature (tfExampleOf ex) "value"
        = some (FeatureVal.bytesList [utf8 ex.tgt])
    ∧ lookupFeature (tfExampleOf ex) "dialog_id"
        = some (FeatureVal.bytesList [utf8 ex.dialog_id])
    ∧ lookupFeature (tfExampleOf ex) "turn"
        = some (FeatureVal.int64List [ex.turn])
    ∧ (∀ f, tfExampleOf { ex with frame := f } = tfExampleOf ex) :=
  ⟨rfl, rfl, rfl, rfl, rfl, fun _ => rfl⟩

/-- C5: with `shuffle = true`, whatever permutation the random source
produces, the written file decodes to a permutation of the input's decoded
images — the same multiset of records, with the same count — though the
order need not match the input. -/
theorem claim5_shuffle_is_permutation (fs : FS)
    (examples shuffled : List TextToTextExample) (path : String)
    (_hlen : 1 < examples.length) (hperm : shuffled.Perm examples) :
    ∃ ds, decodeAll ((write_data fs examples path true shuffled).fileRecords)
        = Except.ok ds
      ∧ ds.Perm (examples.map expectedDecode)
      ∧ ds.length = examples.length := by
  refine ⟨shuffled.map expectedDecode, decodeAll_map_tfExampleOf shuffled, ?_, ?_⟩
  · exact hperm.map expectedDecode
  · rw [List.length_map]
    exact hperm.length_eq

/-- C5 witness: two concrete records written in swapped order decode to a
permutation of the input's decoded images. -/
theorem claim5_shuffle_witness :
    1 < ([⟨"a", "b", "d", 0, 0⟩, ⟨"c", "e", "d", 1, 0⟩]
      : List TextToTextExample).length
    ∧ ∃ ds, decodeAll ((write_data [] [⟨"a", "b", "d", 0, 0⟩, ⟨"c", "e", "d", 1, 0⟩]
          "out" true [⟨"c", "e", "d", 1, 0⟩, ⟨"a", "b", "d", 0, 0⟩]).fileRecords)
        = Except.ok ds
      ∧ ds.Perm ([⟨"a", "b", "d", 0, 0⟩, ⟨"c", "e", "d", 1, 0⟩].map expectedDecode)
      ∧ ds.length = ([⟨"a", "b", "d", 0, 0⟩, ⟨"c", "e", "d", 1, 0⟩]
          : List TextToTextExample).length :=
  ⟨by decide,
   claim5_shuffle_is_permutation [] [⟨"a", "b", "d", 0, 0⟩, ⟨"c", "e", "d", 1, 0⟩]
     [⟨"c", "e", "d", 1, 0⟩, ⟨"a", "b", "d", 0, 0⟩] "out" (by decide)
     (List.Perm.swap _ _ _)⟩

/-- C6: the writer operates on the caller's sequence itself, not a private
copy: with `shuffle = true` the caller's sequence after the call is whatever
permutation `random.shuffle` produced in place (and there are runs where it
differs from the input order), while with `shuffle = false` it is left
entirely unchanged. -/
theorem claim6_shuffle_in_place (fs : FS)
    (examples shuffled : List TextToTextExample) (path : String) :
    (write_data fs examples path true shuffled).finalExamples = shuffled
    ∧ (write_data fs examples path false shuffled).finalExamples = examples
    ∧ ∃ e1 e2 : TextToTextExample, ∃ shf : List TextToTextExample,
        shf.Perm [e1, e2] ∧ shf ≠ [e1, e2]
        ∧ (write_data fs [e1, e2] path true shf).finalExamples ≠ [e1, e2] := by
  refine ⟨rfl, rfl, ⟨"a", "b", "d", 0, 0⟩, ⟨"c", "e", "f", 1, 0⟩,
    [⟨"c", "e", "f", 1, 0⟩, ⟨"a", "b", "d", 0, 0⟩], List.Perm.swap _ _ _,
    by decide, ?_⟩
  show ([⟨"c", "e", "f", 1, 0⟩, ⟨"a", "b", "d", 0, 0⟩]
    : List TextToTextExample) ≠ [⟨"a", "b", "d", 0, 0⟩, ⟨"c", "e", "f", 1, 0⟩]
  decide

/-- C7: `write_data` invokes the recursive directory create on the parent of
the output path as its first action, before the file write; afterwards the
parent directory and every ancestor of it exist, directories that already
existed are kept (creation is non-destructive), and repeating the create on
the resulting state changes nothing (idempotent create), so the step
succeeds whether or not the parent already existed. -/
theorem claim7_creates_parent_directory (fs : FS)
    (examples shuffled : List TextToTextExample) (path : String)
    (shuffle : Bool) (hne : dirname path ≠ "") :
    dirComponents (dirname path)
        ∈ (write_data fs examples path shuffle shuffled).fsAfter
    ∧ (∀ p ∈ cumDirs [] (dirComponents (dirname path)),
        p ∈ (write_data fs examples path shuffle shuffled).fsAfter)
    ∧ (∀ p ∈ fs, p ∈ (write_data fs examples path shuffle shuffled).fsAfter)
    ∧ makedirs (makedirs fs (dirname path)) (dirname path)
        = makedirs fs (dirname path)
    ∧ (write_data fs examples path shuffle shuffled).trace.head?
        = some (Effect.mkdirRec (dirname path)) :=
  ⟨mem_makedirs_self fs (dirname path) hne,
   fun p hp => mem_makedirs_ancestors fs (dirname path) hne p hp,
   fun p hp => mem_makedirs_of_mem fs (dirname path) p hp,
   makedirs_idempotent fs (dirname path),
   rfl⟩

/-- C7 witness: writing to `data/out.tfrecord` on an empty filesystem
creates the `data` directory. -/
theorem claim7_witness :
    dirname "data/out.tfrecord" ≠ ""
    ∧ dirComponents (dirname "data/out.tfrecord")
        ∈ (write_data [] [] "data/out.tfrecord" false []).fsAfter :=
  ⟨by decide,
   (claim7_creates_parent_directory [] [] [] "data/out.tfrecord" false
     (by decide)).1⟩

/-- C8: writing an empty sequence of examples succeeds: the output file
holds zero records, sequentially decoding it yields the empty sequence, and
the logged count is 0. -/
theorem claim8_empty_input (fs : FS) (path : String) (shuffle : Bool) :
    (write_data fs [] path shuffle []).fileRecords = []
    ∧ decodeAll ((write_data fs [] path shuffle []).fileRecords) = Except.ok []
    ∧ (write_data fs [] path shuffle []).loggedCount = 0 := by
  cases shuffle <;> exact ⟨rfl, rfl, rfl⟩

/-- C9: constructing a `TextToTextExample` fails exactly when one of `src`,
`tgt`, `dialog_id`, `turn` is absent; when `frame` is omitted it defaults to
0; and all five fields read back the supplied values. -/
theorem claim9_construction (s t d : String) (n f : Int)
    (osrc otgt odid : Option String) (oturn oframe : Option Int) :
    (mkTextToTextExample osrc otgt odid oturn oframe = none ↔
      (osrc = none ∨ otgt = none ∨ odid = none ∨ oturn = none))
    ∧ mkTextToTextExample (some s) (some t) (some d) (some n) none
        = some ⟨s, t, d, n, 0⟩
    ∧ mkTextToTextExample (some s) (some t) (some d) (some n) (some f)
        = some ⟨s, t, d, n, f⟩
    ∧ (⟨s, t, d, n, f⟩ : TextToTextExample).src = s
    ∧ (⟨s, t, d, n, f⟩ : TextToTextExample).tgt = t
    ∧ (⟨s, t, d, n, f⟩ : TextToTextExample).dialog_id = d
    ∧ (⟨s, t, d, n, f⟩ : TextToTextExample).turn = n
    ∧ (⟨s, t, d, n, f⟩ : TextToTextExample).frame = f := by
  refine ⟨?_, rfl, rfl, rfl, rfl, rfl, rfl, rfl⟩
  cases osrc <;> cases otgt <;> cases odid <;> cases oturn <;>
    simp [mkTextToTextExample]

/-- C10: for a bare filename with no directory separator, `os.path.dirname`
returns the empty string and `write_data` still invokes the directory-create
step, passing it that empty string (the step is not skipped); in the
TensorFlow filesystem model the empty-path create is a no-op that succeeds,
which is what decides the call's success for such paths. -/
theorem claim10_bare_filename :
    dirname "out.tfrecord" = ""
    ∧ (∀ (fs : FS) (examples shuffled : List TextToTextExample)
        (shuffle : Bool),
        (write_data fs examples "out.tfrecord" shuffle shuffled).trace.head?
          = some (Effect.mkdirRec ""))
    ∧ (∀ fs : FS, makedirs fs "" = fs) := by
  refine ⟨by decide, fun fs examples shuffled shuffle => ?_, fun fs => rfl⟩
  show some (Effect.mkdirRec (dirname "out.tfrecord")) = some (Effect.mkdirRec "")
  decide
